import Mathlib

/-!
Verification development for the NMove gait-analysis pipeline.

The Python sources under `backend/d_processing` and `backend/app/d_processing`
are shallowly embedded here: numpy arrays become `List ℚ` (or lists of 8-field
records), machine floats become exact rationals (reals only where the source
takes a square root), and Python control flow becomes ordinary functional
code.  Each definition carries the name of the function it embeds.
-/

/-- One row of an `(N, 8)` IMU matrix.  Columns as used by the source:
`c2..c4` accelerometer x/y/z, `c5..c7` gyroscope x/y/z (`step_detection.py`
reads `c4` as vertical acceleration and `c6` as sagittal angular velocity). -/
structure Sample8 where
  c0 : ℚ
  c1 : ℚ
  c2 : ℚ
  c3 : ℚ
  c4 : ℚ
  c5 : ℚ
  c6 : ℚ
  c7 : ℚ
deriving DecidableEq, Repr

/-- `np.mean` of a rational list (population mean).  `np.mean` of an empty
array is NaN in Python; this embedding returns `0` there (Lean division by
zero), and no theorem below relies on the empty case uninspected. -/
def npMean (l : List ℚ) : ℚ := l.sum / l.length

/-- `np.var`-style population variance (the square of `np.std`), kept in ℚ so
that the square root is only taken when a real-valued result is required. -/
def npVar (l : List ℚ) : ℚ :=
  (l.map (fun x => (x - npMean l) ^ 2)).sum / l.length

/-- Python `int(q)` for the nonnegative rationals that appear in the sources
(truncation towards zero = floor for nonnegative arguments). -/
def intFloor (q : ℚ) : ℕ := q.floor.toNat

/-- First index of the maximum of a list, auxiliary scan
(`np.argmax` keeps the first occurrence). -/
def argmaxAux : List ℚ → ℕ → ℕ → ℚ → ℕ
  | [], _, best, _ => best
  | a :: t, i, best, bv =>
      if bv < a then argmaxAux t (i + 1) i a else argmaxAux t (i + 1) best bv

/-- `np.argmax` (first occurrence of the maximum; `0` on the empty list). -/
def argmaxIdx : List ℚ → ℕ
  | [] => 0
  | a :: t => argmaxAux t 1 0 a

/-- First index of the minimum of a list, auxiliary scan
(`np.argmin` keeps the first occurrence). -/
def argminAux : List ℚ → ℕ → ℕ → ℚ → ℕ
  | [], _, best, _ => best
  | a :: t, i, best, bv =>
      if a < bv then argminAux t (i + 1) i a else argminAux t (i + 1) best bv

/-- `np.argmin` (first occurrence of the minimum; `0` on the empty list). -/
def argminIdx : List ℚ → ℕ
  | [] => 0
  | a :: t => argminAux t 1 0 a

/-! ## Calibration (`backend/d_processing/calibration.py`) -/

/-- `CalibrationParams`: per-axis bias/scale for accelerometer and gyroscope
(`calibration.py`, `@dataclass CalibrationParams`). -/
structure CalibrationParams where
  acc_bias : ℚ × ℚ × ℚ
  acc_scale : ℚ × ℚ × ℚ
  gyro_bias : ℚ × ℚ × ℚ
  gyro_scale : ℚ × ℚ × ℚ
deriving DecidableEq, Repr

/-- Default sampling rate `fs = 125.0` of `IMUCalibrator.__init__`. -/
def calibFs : ℚ := 125

/-- `IMUCalibrator.calibrate_static` (`calibration.py` lines 66-98).
`acc_data = data[:, 2:5]`, `gyro_data = data[:, 5:8]`,
`n_samples = int(duration * self.fs)`; the per-axis means of the first
`n_samples` rows become the biases, standard gravity `9.81` is subtracted on
the vertical (third accelerometer) axis, and both scale vectors are ones.
The source performs no sample-count validation: `acc_data[:n_samples]`
silently truncates to however many rows exist. -/
def calibrate_static (data : List Sample8) (duration : ℚ) : CalibrationParams :=
  let n_samples := intFloor (duration * calibFs)
  let acc_static := (data.map fun r => (r.c2, r.c3, r.c4)).take n_samples
  let gyro_static := (data.map fun r => (r.c5, r.c6, r.c7)).take n_samples
  let acc_bias :=
    (npMean (acc_static.map (·.1)), npMean (acc_static.map (·.2.1)),
      npMean (acc_static.map (·.2.2)) - 981 / 100)
  let gyro_bias :=
    (npMean (gyro_static.map (·.1)), npMean (gyro_static.map (·.2.1)),
      npMean (gyro_static.map (·.2.2)))
  { acc_bias := acc_bias
    acc_scale := (1, 1, 1)
    gyro_bias := gyro_bias
    gyro_scale := (1, 1, 1) }

/-- `IMUCalibrator.apply_calibration` (`calibration.py` lines 142-156).
`self.current_params` is passed explicitly (`none` = no params set).
With params set the function copies the matrix and overwrites columns 2-4
with `(acc - acc_bias) / acc_scale` and columns 5-7 with
`(gyro - gyro_bias) / gyro_scale`; columns 0-1 are untouched. -/
def apply_calibration (current_params : Option CalibrationParams)
    (data : List Sample8) : List Sample8 :=
  match current_params with
  | none => data
  | some p =>
      data.map fun r =>
        { r with
          c2 := (r.c2 - p.acc_bias.1) / p.acc_scale.1
          c3 := (r.c3 - p.acc_bias.2.1) / p.acc_scale.2.1
          c4 := (r.c4 - p.acc_bias.2.2) / p.acc_scale.2.2
          c5 := (r.c5 - p.gyro_bias.1) / p.gyro_scale.1
          c6 := (r.c6 - p.gyro_bias.2.1) / p.gyro_scale.2.1
          c7 := (r.c7 - p.gyro_bias.2.2) / p.gyro_scale.2.2 }

/-! ## Activity classification (`backend/d_processing/detect_act.py`) -/

/-- Modelled from the spec: the `ActivityType` enumeration lives in
`app/data/tables.py`, which is not part of the provided sources; the spec
(§3) fixes its members as {standing, walking, stairs, running, jumping,
unknown}. -/
inductive ActivityType where
  | standing
  | walking
  | stairs
  | running
  | jumping
  | unknown
deriving DecidableEq, Repr

/-- `ActivityDetector._classify_activity` (`detect_act.py` lines 84-104):
the ordered threshold cascade on (std, dominant frequency, peak impact,
signal roughness). -/
def classify_activity (std dominant_freq peak_impact signal_roughness : ℚ) :
    ActivityType :=
  if std < 15 / 100 then ActivityType.standing
  else if peak_impact > 4 then ActivityType.jumping
  else if std > 8 / 10 ∧ dominant_freq > 5 / 2 then ActivityType.running
  else if 15 / 100 ≤ std ∧ std ≤ 1 then
    if 1 / 2 ≤ dominant_freq ∧ dominant_freq ≤ 5 / 2 then
      if signal_roughness > 5 then ActivityType.stairs else ActivityType.walking
    else ActivityType.unknown
  else ActivityType.unknown

/-! ## Peak finding (scipy.signal.find_peaks, as called by the sources)

The two call sites are `find_peaks(acc_z, height=threshold, distance=...)`
(heel strikes) and `find_peaks(-window, distance=5)` (toe-off minima).
The embedding follows scipy: local maxima with plateau midpoints, then the
height filter, then the distance filter that keeps peaks greedily by
descending height. -/

/-- Inner plateau scan of scipy `_local_maxima_1d`: starting from `j`,
advance while `j < iMax` and `x[j] = v`; returns the first index past the
plateau.  The loop is embedded with structural fuel so that it reduces in
the kernel; any fuel of at least `iMax - j` gives the loop's behaviour
(see `plateauEnd_fuel`), and every call below passes `iMax`. -/
def plateauEnd (x : List ℚ) (v : ℚ) (iMax : ℕ) : ℕ → ℕ → ℕ
  | 0, j => j
  | fuel + 1, j =>
      if j < iMax ∧ x.getD j 0 = v then plateauEnd x v iMax fuel (j + 1) else j

/-- Main loop of scipy `_local_maxima_1d`: scans `i` from 1 to `iMax - 1`
(`iMax = n - 1`), emitting the midpoint of every (plateau) local maximum.
Fuel-indexed for kernel reduction; `lmLoop_fuel` shows any fuel above
`iMax - i` realises the full loop. -/
def lmLoop (x : List ℚ) (iMax : ℕ) : ℕ → ℕ → List ℕ
  | 0, _ => []
  | fuel + 1, i =>
      if i < iMax then
        if x.getD (i - 1) 0 < x.getD i 0 ∧
            x.getD (plateauEnd x (x.getD i 0) iMax iMax (i + 1)) 0 <
              x.getD i 0 then
          (i + (plateauEnd x (x.getD i 0) iMax iMax (i + 1) - 1)) / 2 ::
            lmLoop x iMax fuel (plateauEnd x (x.getD i 0) iMax iMax (i + 1) + 1)
        else lmLoop x iMax fuel (i + 1)
      else []

/-- scipy `_local_maxima_1d x`: indices of the (plateau-midpoint) local
maxima of `x`, in increasing order, all in `[1, n - 2]`.  The fuel
`x.length` exceeds the at most `x.length - 2` loop iterations. -/
def localMaxima (x : List ℚ) : List ℕ := lmLoop x (x.length - 1) x.length 1

/-- Ascending stable argsort of a rational list, used for scipy
`_select_by_peak_distance` processing priority.  `np.argsort` leaves the
order of equal keys unspecified (introsort); the embedding fixes the stable
order, and no theorem below depends on tie order. -/
def argsortAsc (v : List ℚ) : List ℕ :=
  List.insertionSort (fun a b => v.getD a 0 ≤ v.getD b 0) (List.range v.length)

/-- One outer iteration of scipy `_select_by_peak_distance` for a kept peak
at position `j`: every other position whose peak lies closer than `d`
samples is discarded.  (The source walks left and right from `j` while the
distance condition holds; for a sorted peak array those walks visit exactly
the positions within `d`.) -/
def removeNear (peaks : List ℕ) (d : ℕ) (keep : ℕ → Bool) (j : ℕ) : ℕ → Bool :=
  fun k =>
    if k = j then keep k
    else if Nat.dist (peaks.getD k 0) (peaks.getD j 0) < d then false
    else keep k

/-- scipy `_select_by_peak_distance` main loop: positions are visited in the
given order (highest priority first); a position that is still kept evicts
its neighbours within `d`. -/
def selectFold (peaks : List ℕ) (d : ℕ) : (ℕ → Bool) → List ℕ → (ℕ → Bool)
  | keep, [] => keep
  | keep, j :: rest =>
      selectFold peaks d
        (if keep j then removeNear peaks d keep j else keep) rest

/-- scipy `_select_by_peak_distance` as called from `find_peaks(...,
distance=d)`: priorities are the signal values at the peaks, processed in
descending order, and the surviving peaks are returned in index order. -/
def selectByPeakDistance (x : List ℚ) (peaks : List ℕ) (d : ℕ) : List ℕ :=
  let priority := peaks.map fun p => x.getD p 0
  let order := (argsortAsc priority).reverse
  let keepF := selectFold peaks d (fun _ => true) order
  ((List.range peaks.length).filter fun k => keepF k).map fun k =>
    peaks.getD k 0

/-! ## Gait event detection (`backend/d_processing/step_detection.py`)

`GaitEventDetector` is embedded at its constructor defaults
(`sampling_rate=125.0`, `hs_threshold_factor=1.5`, `hs_min_distance=0.4`,
`to_search_window=(0.1, 0.8)`), which are also the constants named by the
spec. -/

/-- `GaitEventDetector` default `sampling_rate`. -/
def gaitFs : ℚ := 125

/-- `GaitEventDetector` default `hs_threshold_factor = 1.5`. -/
def hs_threshold_factor : ℚ := 3 / 2

/-- `GaitEventDetector` default `hs_min_distance = 0.4` (seconds). -/
def hs_min_distance : ℚ := 2 / 5

/-- `GaitEventDetector` default `to_search_window = (0.1, 0.8)`. -/
def to_search_window : ℚ × ℚ := (1 / 10, 4 / 5)

/-- `self._hs_min_distance_samples = int(hs_min_distance * sampling_rate)`
(equals 50 at the defaults). -/
def hs_min_distance_samples : ℕ := intFloor (hs_min_distance * gaitFs)

/-- The height filter of `find_peaks(acc_z, height=mean + 1.5*std, ...)`.
`xp ≥ mean + 1.5*sqrt var` is encoded without irrational arithmetic as
`xp - mean ≥ 0 ∧ (xp - mean)^2 ≥ 1.5^2 * var`, which is equivalent because
`1.5 * sqrt var` is nonnegative. -/
def heightOk (xp mean v : ℚ) : Bool :=
  decide (0 ≤ xp - mean) && decide (hs_threshold_factor ^ 2 * v ≤ (xp - mean) ^ 2)

/-- `GaitEventDetector._detect_heel_strikes` (`step_detection.py` lines
41-51): peaks of the vertical acceleration above `mean + 1.5*std`, at least
`_hs_min_distance_samples` apart. -/
def detect_heel_strikes (acc_z : List ℚ) : List ℕ :=
  selectByPeakDistance acc_z
    ((localMaxima acc_z).filter fun p =>
      heightOk (acc_z.getD p 0) (npMean acc_z) (npVar acc_z))
    hs_min_distance_samples

/-- One record of `GaitEventDetector.detect` (Python dict keys `hs`, `to`,
`next_hs`; the middle field is named `to_idx` here because `to` is reserved
in Lean, matching the `to_idx` key used by `step_pro.py`). -/
structure GaitEvent where
  hs : ℕ
  to_idx : ℕ
  next_hs : ℕ
deriving DecidableEq, Repr

/-- The local `window = gyro_y[start:end]` of
`GaitEventDetector._find_toe_off_in_window`. -/
def toWindow (gyro_y : List ℚ) (start stop : ℕ) : List ℚ :=
  (gyro_y.drop start).take (stop - start)

/-- The local `minima, properties = find_peaks(-window, distance=5)` of
`GaitEventDetector._find_toe_off_in_window`. -/
def toMinima (gyro_y : List ℚ) (start stop : ℕ) : List ℕ :=
  selectByPeakDistance ((toWindow gyro_y start stop).map Neg.neg)
    (localMaxima ((toWindow gyro_y start stop).map Neg.neg)) 5

/-- `GaitEventDetector._find_toe_off_in_window` (`step_detection.py` lines
89-109).  `find_peaks(-window, distance=5)` is called without the
`prominence` argument, so the returned properties dictionary has no
`prominences` key and `properties.get('prominences', np.ones(len(minima)))`
always yields the all-ones vector. -/
def find_toe_off_in_window (gyro_y : List ℚ) (start stop : ℕ) : Option ℕ :=
  if (toWindow gyro_y start stop).length < 3 then none
  else if (toMinima gyro_y start stop).isEmpty then
    some (start + argminIdx (toWindow gyro_y start stop))
  else
    some (start + (toMinima gyro_y start stop).getD
      (argmaxIdx (List.replicate (toMinima gyro_y start stop).length 1)) 0)

/-- The clamped window start of `GaitEventDetector._detect_toe_offs`:
`search_start = max(hs + int(0.1 * stride), hs + 1)` with
`stride = hs_next - hs`. -/
def toSearchStart (hs_current hs_next : ℕ) : ℕ :=
  max (hs_current + intFloor (to_search_window.1 * (hs_next - hs_current)))
    (hs_current + 1)

/-- The clamped window end of `GaitEventDetector._detect_toe_offs`:
`search_end = min(hs + int(0.8 * stride), hs_next - 1)`. -/
def toSearchEnd (hs_current hs_next : ℕ) : ℕ :=
  min (hs_current + intFloor (to_search_window.2 * (hs_next - hs_current)))
    (hs_next - 1)

/-- `GaitEventDetector._detect_toe_offs` (`step_detection.py` lines 53-87):
for each consecutive heel-strike pair, clamp the search window
`[hs + 0.1*stride, hs + 0.8*stride]` to `(hs, next_hs)`, skip unusable
windows (`search_start >= search_end`), and emit an event when a toe-off
index is found. -/
def detect_toe_offs : List ℕ → List ℚ → List GaitEvent
  | hs_current :: hs_next :: rest, gyro_y =>
      (if toSearchStart hs_current hs_next ≥ toSearchEnd hs_current hs_next
       then []
       else
         match find_toe_off_in_window gyro_y (toSearchStart hs_current hs_next)
             (toSearchEnd hs_current hs_next) with
         | none => []
         | some to_index => [⟨hs_current, to_index, hs_next⟩]) ++
        detect_toe_offs (hs_next :: rest) gyro_y
  | _, _ => []

/-- `GaitEventDetector.detect` (`step_detection.py` lines 20-39): shape
checking is enforced by the `Sample8` row type; streams shorter than
`2 * _hs_min_distance_samples` or with fewer than two heel strikes yield no
events. -/
def gaitDetect (imu_data : List Sample8) : List GaitEvent :=
  if imu_data.length < hs_min_distance_samples * 2 then []
  else if (detect_heel_strikes (imu_data.map (·.c4))).length < 2 then []
  else detect_toe_offs (detect_heel_strikes (imu_data.map (·.c4)))
    (imu_data.map (·.c6))

/-- A synthetic 110-sample stream: vertical-acceleration spikes at samples
20 and 80 (heel strikes) and an angular-velocity dip at sample 40 (toe-off),
all other channels zero. -/
def sampleStream : List Sample8 :=
  (List.range 110).map fun i =>
    { c0 := 0, c1 := 0, c2 := 0, c3 := 0,
      c4 := if i = 20 ∨ i = 80 then 10 else 0,
      c5 := 0, c6 := if i = 40 then -5 else 0, c7 := 0 }

/-! ## Claim C1: the toe-off selection rule -/

/-- Left-base scan of scipy `peak_prominences`: walk left from the peak
while the signal stays at or below the peak value, tracking the minimum. -/
def promLeftMin (y : List ℚ) (vp : ℚ) : ℕ → ℚ → ℚ
  | 0, m => if y.getD 0 0 ≤ vp then min m (y.getD 0 0) else m
  | i + 1, m =>
      if y.getD (i + 1) 0 ≤ vp then
        promLeftMin y vp i (min m (y.getD (i + 1) 0))
      else m

/-- Right-base scan of scipy `peak_prominences` (fuel-indexed upward walk;
fuel `y.length` always suffices). -/
def promRightMin (y : List ℚ) (vp : ℚ) : ℕ → ℕ → ℚ → ℚ
  | 0, _, m => m
  | fuel + 1, i, m =>
      if i < y.length ∧ y.getD i 0 ≤ vp then
        promRightMin y vp fuel (i + 1) (min m (y.getD i 0))
      else m

/-- scipy prominence of the peak at index `p` of `y`:
`y[p] - max(left base, right base)`. -/
def prominence (y : List ℚ) (p : ℕ) : ℚ :=
  y.getD p 0 -
    max (promLeftMin y (y.getD p 0) p (y.getD p 0))
      (promRightMin y (y.getD p 0) y.length p (y.getD p 0))

/-- Formalisation of the selection rule claimed by the spec, following its
words: within the (nonempty) window, the most-prominent local minimum of
the angular-velocity signal marks toe-off (prominence of a minimum of the
window = scipy prominence of the corresponding peak of the negated window;
first index wins ties); when no local minimum is resolvable, the global
minimum of the window is the fallback, so every usable window yields an
index. -/
def toeOffMostProminent (gyro_y : List ℚ) (start stop : ℕ) : Option ℕ :=
  if (toWindow gyro_y start stop).length = 0 then none
  else
    match localMaxima ((toWindow gyro_y start stop).map Neg.neg) with
    | [] => some (start + argminIdx (toWindow gyro_y start stop))
    | m :: ms =>
        some (start + (m :: ms).getD
          (argmaxIdx ((m :: ms).map
            (prominence ((toWindow gyro_y start stop).map Neg.neg)))) 0)

/-- A 31-sample angular-velocity trace with a shallow local minimum (-1) at
index 4 and a deep, most-prominent local minimum (-100) at index 11. -/
def gyroC1 : List ℚ :=
  (List.range 31).map fun i =>
    if i = 4 then -1 else if i = 11 then -100 else 0

/-- A 4-sample angular-velocity trace whose usable clamped window for the
heel-strike pair (0, 4) has only 2 samples. -/
def gyroC1short : List ℚ := [0, -3, -7, 0]

/-! ## Session aggregation (`backend/app/d_processing/session_pro.py`)

Statistics that involve `np.std` take a square root, so the summary fields
live in ℝ (`Real.sqrt` applied to the exact rational variance); all control
decisions of the source are on list shapes or rational values and stay
decidable.  A metric dict is embedded as a record of tri-state fields
(absent key / present-but-`None` / numeric value), which is the input shape
`_extract_field` distinguishes. -/

/-- One (possibly missing or null) numeric entry of a per-step metrics
dict. -/
inductive FieldVal where
  | absent
  | null
  | val (q : ℚ)
deriving DecidableEq, Repr

/-- A per-step metrics dict restricted to the keys `calculate_session_summary`
reads; `knee_curve_json` is carried as the parsed list (`none` = key absent
or `None`). -/
structure MetricRec where
  step_time : FieldVal := .absent
  stance_time : FieldVal := .absent
  swing_time : FieldVal := .absent
  cadence : FieldVal := .absent
  knee_rom : FieldVal := .absent
  knee_flexion_max : FieldVal := .absent
  knee_extension_min : FieldVal := .absent
  hip_angle : FieldVal := .absent
  hip_rom : FieldVal := .absent
  hs_idx : FieldVal := .absent
  next_hs_idx : FieldVal := .absent
  knee_curve_json : Option (List ℚ) := none
deriving DecidableEq, Repr

/-- `_extract_field` (`session_pro.py` lines 253-269) with the default
`0.0`: a missing key contributes the default, an explicit `None` is
skipped, a value is kept. -/
def extract_field (l : List MetricRec) (f : MetricRec → FieldVal) : List ℚ :=
  l.filterMap fun m =>
    match f m with
    | .absent => some 0
    | .null => none
    | .val q => some q

/-- `_extract_field` with `default=None` (used for `hip_angle`/`hip_rom`):
missing keys and explicit `None`s are both skipped.  (The source returns
Python `None` for an empty result; its only consumers guard with
`is not None and len > 0`, which the empty list models.) -/
def extract_field_none (l : List MetricRec) (f : MetricRec → FieldVal) :
    List ℚ :=
  l.filterMap fun m =>
    match f m with
    | .absent => none
    | .null => none
    | .val q => some q

/-- `np.std` (population standard deviation) as a real. -/
noncomputable def npStdR (l : List ℚ) : ℝ := Real.sqrt ((npVar l : ℚ) : ℝ)

/-- Mean of a list of reals (`np.mean` over already-real values). -/
noncomputable def meanR (l : List ℝ) : ℝ := l.sum / l.length

/-- `np.max` on a list known to be nonempty (`0` on `[]`, never used
there). -/
def npMaxD : List ℚ → ℚ
  | [] => 0
  | a :: t => t.foldl max a

/-- `np.min` on a list known to be nonempty (`0` on `[]`, never used
there). -/
def npMinD : List ℚ → ℚ
  | [] => 0
  | a :: t => t.foldl min a

/-- `_calculate_cv` (`session_pro.py` lines 272-284): `0` on an empty
array or a zero mean, else `std/mean*100`.  (The source also returns 0 for
a NaN mean; NaN has no counterpart in the exact embedding.) -/
noncomputable def calculate_cv (data : List ℚ) : ℝ :=
  if data.length = 0 then 0
  else if npMean data = 0 then 0
  else npStdR data / (npMean data : ℝ) * 100

/-- Modelled from the spec: `SessionStatus` lives in `data/tables.py`,
which is not part of the provided sources; the spec (§3) fixes the
statuses as {completed, failed, stopped}. -/
inductive SessionStatus where
  | completed
  | failed
  | stopped
deriving DecidableEq, Repr

/-- `@dataclass SessionSummary` (`session_pro.py` lines 12-60) with its
documented defaults. -/
structure SessionSummary where
  session_id : Option ℤ := none
  user_id : Option ℤ := none
  session_date : Option String := none
  is_baseline : Bool := false
  user_notes : Option String := none
  status : SessionStatus := .completed
  is_processed : Bool := true
  step_count : ℕ := 0
  duration : ℝ := 0
  cadence : ℝ := 0
  avg_step_time : ℝ := 0
  std_step_time : ℝ := 0
  avg_stance_time : ℝ := 0
  std_stance_time : ℝ := 0
  avg_swing_time : ℝ := 0
  std_swing_time : ℝ := 0
  stance_swing_ratio : ℝ := 0
  knee_angle_mean : ℝ := 0
  knee_angle_std : ℝ := 0
  knee_angle_max : ℝ := 0
  knee_angle_min : ℝ := 0
  knee_amplitude : ℝ := 0
  avg_knee_rom : ℝ := 0
  hip_angle_mean : ℝ := 0
  hip_angle_std : ℝ := 0
  hip_angle_max : ℝ := 0
  hip_angle_min : ℝ := 0
  hip_amplitude : ℝ := 0
  avg_hip_rom : ℝ := 0
  cv_step_time : ℝ := 0
  cv_stance_time : ℝ := 0
  cv_knee_angle : ℝ := 0
  cv_hip_angle : ℝ := 0
  gvi : ℝ := 0
  avg_roll : ℝ := 0
  avg_pitch : ℝ := 0
  avg_yaw : ℝ := 0
  avg_cadence_per_step : ℝ := 0
  symmetry_index : Option ℝ := none

/-- The metadata dict accepted by `calculate_session_summary`. -/
structure SessionMetadata where
  session_id : Option ℤ := none
  user_id : Option ℤ := none
  session_date : Option String := none
  is_baseline : Option Bool := none
  user_notes : Option String := none

/-- Lines 120-130 of `calculate_session_summary`: metadata is copied onto a
fresh summary; `datetime.now()` is passed in as the explicit `now` string
(`or`-truthiness makes an empty session_date string fall back to it). -/
def init_summary (md : Option SessionMetadata) (now : String) :
    SessionSummary :=
  match md with
  | some m =>
      { session_id := m.session_id
        user_id := m.user_id
        session_date := some (match m.session_date with
          | some s => if s = "" then now else s
          | none => now)
        is_baseline := m.is_baseline.getD false
        user_notes := m.user_notes }
  | none => { session_date := some now }

/-- The resolved roll/pitch/yaw input of `_calculate_global_orientation`:
`none` covers the unknown-format and missing-field cases, which the source
maps to `(0, 0, 0)` through its internal exception handler. -/
def OrientInput : Type := Option (List ℚ × List ℚ × List ℚ)

/-- `_calculate_global_orientation` (`session_pro.py` lines 287-326): the
per-channel means, or zeros when the fields cannot be resolved. -/
noncomputable def calculate_global_orientation : OrientInput → ℝ × ℝ × ℝ
  | Option.none => (0, 0, 0)
  | Option.some (r, p, y) => ((npMean r : ℝ), (npMean p : ℝ), (npMean y : ℝ))

/-- The accumulated `all_knee_angles` list (lines 183-190): the parsed
knee curves of all steps with a truthy `knee_curve_json`, concatenated. -/
def all_knee_angles (m : List MetricRec) : List ℚ :=
  ((m.filterMap (·.knee_curve_json)).filter fun c => !c.isEmpty).flatten

/-- Lines 139-178 of `calculate_session_summary`: step count, duration
(from first heel strike to last next-heel-strike at 125 Hz when indices
exist, else the summed step times), cadence, the timing means and standard
deviations, the stance/swing quotient, and the mean per-step cadence. -/
noncomputable def timing_stats_block (m : List MetricRec)
    (s : SessionSummary) : SessionSummary :=
  let step_times := extract_field m (·.step_time)
  let hs_indices := extract_field m (·.hs_idx)
  let next_hs_indices := extract_field m (·.next_hs_idx)
  let duration : ℝ :=
    if hs_indices.length > 0 ∧ next_hs_indices.length > 0 then
      (((next_hs_indices.getLast?.getD 0 - hs_indices.getD 0 0) / 125 : ℚ) : ℝ)
    else ((step_times.sum : ℚ) : ℝ)
  let s1 := { s with
    step_count := m.length
    duration := duration
    cadence := if duration > 0 then (m.length : ℝ) / duration * 60
      else s.cadence }
  let s2 := { s1 with
    avg_step_time := (npMean step_times : ℝ)
    std_step_time := npStdR step_times
    avg_stance_time := (npMean (extract_field m (·.stance_time)) : ℝ)
    std_stance_time := npStdR (extract_field m (·.stance_time))
    avg_swing_time := (npMean (extract_field m (·.swing_time)) : ℝ)
    std_swing_time := npStdR (extract_field m (·.swing_time)) }
  let s3 := if s2.avg_swing_time > 0 then
      { s2 with stance_swing_ratio := s2.avg_stance_time / s2.avg_swing_time }
    else s2
  if (extract_field m (·.cadence)).length > 0 then
    { s3 with avg_cadence_per_step := (npMean (extract_field m (·.cadence)) : ℝ) }
  else s3

/-- Lines 180-204 of `calculate_session_summary` (the knee statistics).
`np.max(knee_flexion_maxs)` and `np.min(knee_extension_mins)` raise
`ValueError` on empty arrays; those raises are the `.error` results, and
they carry the summary as already mutated when the exception fires. -/
noncomputable def knee_block (m : List MetricRec) (s : SessionSummary) :
    Except SessionSummary SessionSummary :=
  if (extract_field m (·.knee_rom)).length > 0 then
    let s1 := { s with
      avg_knee_rom := (npMean (extract_field m (·.knee_rom)) : ℝ) }
    if (all_knee_angles m).length > 0 then
      let s2 := { s1 with
        knee_angle_mean := (npMean (all_knee_angles m) : ℝ)
        knee_angle_std := npStdR (all_knee_angles m)
        knee_angle_max := (npMaxD (all_knee_angles m) : ℝ)
        knee_angle_min := (npMinD (all_knee_angles m) : ℝ) }
      .ok { s2 with knee_amplitude := s2.knee_angle_max - s2.knee_angle_min }
    else
      match extract_field m (·.knee_flexion_max) with
      | [] => .error s1
      | a :: t =>
        let s2 := { s1 with knee_angle_max := (npMaxD (a :: t) : ℝ) }
        match extract_field m (·.knee_extension_min) with
        | [] => .error s2
        | b :: u =>
          let s3 := { s2 with
            knee_angle_min := (npMinD (b :: u) : ℝ)
            knee_angle_mean := (npMean (extract_field m (·.knee_rom)) : ℝ)
            knee_angle_std := npStdR (extract_field m (·.knee_rom)) }
          .ok { s3 with
            knee_amplitude := s3.knee_angle_max - s3.knee_angle_min }
  else .ok s

/-- Lines 206-214 of `calculate_session_summary` (hip statistics). -/
noncomputable def hip_block (m : List MetricRec) (s : SessionSummary) :
    SessionSummary :=
  let hip_angles := extract_field_none m (·.hip_angle)
  let s7 := if hip_angles.length > 0 then
      { s with
        hip_angle_mean := (npMean hip_angles : ℝ)
        hip_angle_std := npStdR hip_angles
        hip_angle_max := (npMaxD hip_angles : ℝ)
        hip_angle_min := (npMinD hip_angles : ℝ)
        hip_amplitude := (npMaxD hip_angles : ℝ) - (npMinD hip_angles : ℝ) }
    else s
  if (extract_field_none m (·.hip_rom)).length > 0 then
    { s7 with avg_hip_rom := (npMean (extract_field_none m (·.hip_rom)) : ℝ) }
  else s7

/-- Lines 216-233 of `calculate_session_summary`: the three stored CVs and
the GVI.  `cv_values = [summary.cv_step_time, summary.cv_stance_time,
_calculate_cv(swing_times)]` reads back the two fields assigned just above,
so the list is written with those values; the GVI is the mean of its
strictly positive entries (`summary.gvi` keeps its 0 default when none is
positive). -/
noncomputable def cv_gvi_block (m : List MetricRec) (s : SessionSummary) :
    SessionSummary :=
  let s10 := if (extract_field_none m (·.hip_angle)).length > 0 then
      { s with
        cv_step_time := calculate_cv (extract_field m (·.step_time))
        cv_stance_time := calculate_cv (extract_field m (·.stance_time))
        cv_knee_angle := calculate_cv (extract_field m (·.knee_rom))
        cv_hip_angle := calculate_cv (extract_field_none m (·.hip_angle)) }
    else
      { s with
        cv_step_time := calculate_cv (extract_field m (·.step_time))
        cv_stance_time := calculate_cv (extract_field m (·.stance_time))
        cv_knee_angle := calculate_cv (extract_field m (·.knee_rom)) }
  if ([calculate_cv (extract_field m (·.step_time)),
       calculate_cv (extract_field m (·.stance_time)),
       calculate_cv (extract_field m (·.swing_time))].filter
      fun c => decide (c > 0)).isEmpty then s10
  else
    { s10 with gvi := meanR ([calculate_cv (extract_field m (·.step_time)),
        calculate_cv (extract_field m (·.stance_time)),
        calculate_cv (extract_field m (·.swing_time))].filter
        fun c => decide (c > 0)) }

/-- Lines 235-239 of `calculate_session_summary` (global orientation). -/
noncomputable def orientation_block (raw_orientation : Option OrientInput)
    (s : SessionSummary) : SessionSummary :=
  match raw_orientation with
  | none => s
  | some o =>
      { s with
        avg_roll := (calculate_global_orientation o).1
        avg_pitch := (calculate_global_orientation o).2.1
        avg_yaw := (calculate_global_orientation o).2.2 }

/-- The `try:` body of `calculate_session_summary` (lines 138-244): the
blocks in source order, ending with `status = COMPLETED`; a `ValueError`
raised inside the knee block aborts with the partially-updated summary. -/
noncomputable def session_try_body (m : List MetricRec)
    (o : Option OrientInput) (s0 : SessionSummary) :
    Except SessionSummary SessionSummary :=
  match knee_block m (timing_stats_block m s0) with
  | .error s => .error s
  | .ok s6 =>
      .ok { orientation_block o (cv_gvi_block m (hip_block m s6)) with
            status := SessionStatus.completed, is_processed := true }

/-- `calculate_session_summary` (`session_pro.py` lines 106-250): metadata
initialisation, the empty-input early return with `status = FAILED`, the
aggregation body, and the `except` handler that degrades the summary to
`status = STOPPED`. -/
noncomputable def calculate_session_summary (metrics_list : List MetricRec)
    (raw_orientation : Option OrientInput)
    (session_metadata : Option SessionMetadata) (now : String) :
    SessionSummary :=
  if metrics_list.isEmpty then
    { init_summary session_metadata now with
      status := SessionStatus.failed, is_processed := true }
  else
    match session_try_body metrics_list raw_orientation
        (init_summary session_metadata now) with
    | .ok s => s
    | .error s => { s with status := SessionStatus.stopped, is_processed := true }

/-- The GVI value the source computes on a metrics list: the mean of the
strictly positive CVs among {step-time CV, stance-time CV, swing-time CV},
and 0 when none is positive. -/
noncomputable def gvi_code (m : List MetricRec) : ℝ :=
  if ([calculate_cv (extract_field m (·.step_time)),
       calculate_cv (extract_field m (·.stance_time)),
       calculate_cv (extract_field m (·.swing_time))].filter
      fun c => decide (c > 0)).isEmpty then 0
  else
    meanR ([calculate_cv (extract_field m (·.step_time)),
       calculate_cv (extract_field m (·.stance_time)),
       calculate_cv (extract_field m (·.swing_time))].filter
      fun c => decide (c > 0))

/-- Formalisation of the spec sentence for C5: the GVI as the mean of the
non-zero CVs among `{step-time CV, stance-time CV, swing-time CV}` (CVs
equal to exactly 0 excluded), 0 when all are excluded. -/
noncomputable def gvi_spec_mean_nonzero (m : List MetricRec) : ℝ :=
  if ([calculate_cv (extract_field m (·.step_time)),
       calculate_cv (extract_field m (·.stance_time)),
       calculate_cv (extract_field m (·.swing_time))].filter
      fun c => decide (c ≠ 0)).isEmpty then 0
  else
    meanR ([calculate_cv (extract_field m (·.step_time)),
       calculate_cv (extract_field m (·.stance_time)),
       calculate_cv (extract_field m (·.swing_time))].filter
      fun c => decide (c ≠ 0))

/-- Two step records with negative step times (mean -2, so the step-time CV
is negative), constant stance times (CV exactly 0) and varying swing times
(CV +50).  All other keys are absent. -/
def metricsC5 : List MetricRec :=
  [{ step_time := .val (-1), stance_time := .val 1, swing_time := .val 1 },
   { step_time := .val (-3), stance_time := .val 1, swing_time := .val 3 }]

/-- A single step record whose `knee_rom` key is numeric but whose
`knee_flexion_max` key holds an explicit `None`: the knee block then calls
`np.max` on an empty array, which raises `ValueError`. -/
def metricsC6 : List MetricRec :=
  [{ knee_rom := .val 1, knee_flexion_max := .null }]

/-! ## Per-step metrics (`backend/app/d_processing/step_pro.py`) -/

/-- The timing quantities computed by `_calculate_single_step_metrics`
(`step_pro.py` lines 111-118). -/
structure StepTimings where
  step_time : ℚ
  stance_time : ℚ
  swing_time : ℚ
  stance_percent : ℚ
  swing_percent : ℚ
  cadence : ℚ
deriving DecidableEq, Repr

/-- The timing part of `_calculate_single_step_metrics`: durations are the
index differences divided by the sampling rate, the phase percentages and
cadence guard against a nonpositive step time. -/
def calculate_single_step_timings (hs_idx to_idx next_hs_idx fs : ℕ) :
    StepTimings :=
  { step_time := ((next_hs_idx : ℚ) - hs_idx) / fs
    stance_time := ((to_idx : ℚ) - hs_idx) / fs
    swing_time := ((next_hs_idx : ℚ) - to_idx) / fs
    stance_percent :=
      if ((next_hs_idx : ℚ) - hs_idx) / fs > 0 then
        (((to_idx : ℚ) - hs_idx) / fs) / (((next_hs_idx : ℚ) - hs_idx) / fs)
          * 100
      else 0
    swing_percent :=
      if ((next_hs_idx : ℚ) - hs_idx) / fs > 0 then
        (((next_hs_idx : ℚ) - to_idx) / fs) / (((next_hs_idx : ℚ) - hs_idx) / fs)
          * 100
      else 0
    cadence :=
      if ((next_hs_idx : ℚ) - hs_idx) / fs > 0 then
        60 / (((next_hs_idx : ℚ) - hs_idx) / fs)
      else 0 }

/-- Python banker's rounding (`round` rounds halves to the nearest even
integer; for other fractional parts it agrees with floor of `q + 1/2`). -/
def pyRound (q : ℚ) : ℤ :=
  if q - q.floor = 1 / 2 then
    (if 2 ∣ q.floor then q.floor else q.floor + 1)
  else (q + 1 / 2).floor

/-- Python `round(q, n)` on exact rationals. -/
def pyRoundTo (n : ℕ) (q : ℚ) : ℚ := (pyRound (q * 10 ^ n) : ℚ) / 10 ^ n

/-- `np.linspace a b n` (only the `n = 0`, `n = 1` and `n ≥ 2` shapes the
source exercises). -/
def linspace (a b : ℚ) (n : ℕ) : List ℚ :=
  if n = 1 then [a]
  else (List.range n).map fun i => a + (b - a) * i / ((n : ℚ) - 1)

/-- `np.searchsorted(xs, t)` (side `left`) for a sorted `xs`: the number of
entries strictly below `t`. -/
def searchsortedLeft (xs : List ℚ) (t : ℚ) : ℕ :=
  (xs.takeWhile fun v => v < t).length

/-- `scipy.interpolate.interp1d(xs, ys, kind="linear",
fill_value="extrapolate")` evaluated at `t`: the interval index is the
searchsorted position clipped to `[1, len-1]`, and the value is the linear
interpolant on that interval. -/
def interp1dLinear (xs ys : List ℚ) (t : ℚ) : ℚ :=
  ys.getD (min (max (searchsortedLeft xs t) 1) (xs.length - 1) - 1) 0 +
    (ys.getD (min (max (searchsortedLeft xs t) 1) (xs.length - 1)) 0 -
      ys.getD (min (max (searchsortedLeft xs t) 1) (xs.length - 1) - 1) 0) *
      (t - xs.getD (min (max (searchsortedLeft xs t) 1) (xs.length - 1) - 1) 0) /
      (xs.getD (min (max (searchsortedLeft xs t) 1) (xs.length - 1)) 0 -
        xs.getD (min (max (searchsortedLeft xs t) 1) (xs.length - 1) - 1) 0)

/-- `_normalize_to_100_points` (`step_pro.py` lines 207-230): the empty
input yields one hundred zeros, a single sample is replicated one hundred
times, and otherwise the curve is resampled to exactly 100 points by linear
interpolation over the normalized 0-100% axis, each point rounded to 3
decimals.  (The `except` arm is unreachable in exact arithmetic: the
interpolation nodes are strictly increasing.) -/
def normalize_to_100_points (signal : List ℚ) : List ℚ :=
  if signal.length = 0 then List.replicate 100 0
  else if signal.length = 1 then List.replicate 100 (signal.getD 0 0)
  else
    (linspace 0 100 100).map fun t =>
      pyRoundTo 3 (interp1dLinear (linspace 0 100 signal.length) signal t)

/-- A 3-row static recording, far fewer than the `5 s × 125 Hz = 625`
samples the spec demands. -/
def shortStaticData : List Sample8 :=
  [⟨0, 0, 1, 2, 3, 4, 5, 6⟩, ⟨0, 0, 1, 2, 3, 4, 5, 6⟩,
   ⟨0, 0, 4, 5, 12, 7, 8, 9⟩]

/-- C9: the activity classification implements exactly the ordered
first-match rule cascade stated by the spec (formalised as
`classify_spec_c9`). -/
def classify_spec_c9 (std dominant_freq peak_impact signal_roughness : ℚ) :
    ActivityType :=
  if std < 15 / 100 then ActivityType.standing
  else if peak_impact > 4 then ActivityType.jumping
  else if std > 8 / 10 ∧ dominant_freq > 5 / 2 then ActivityType.running
  else if (15 / 100 ≤ std ∧ std ≤ 1) ∧
      (1 / 2 ≤ dominant_freq ∧ dominant_freq ≤ 5 / 2) then
    (if signal_roughness > 5 then ActivityType.stairs
     else ActivityType.walking)
  else ActivityType.unknown

/-! ## Theorems -/

/-- Sufficient fuel makes the plateau scan fuel-independent: the scan can
take at most `iMax - j` steps. -/
theorem plateauEnd_fuel (x : List ℚ) (v : ℚ) (iMax : ℕ) :
    ∀ (f₁ f₂ j : ℕ), iMax - j ≤ f₁ → iMax - j ≤ f₂ →
      plateauEnd x v iMax f₁ j = plateauEnd x v iMax f₂ j := by
  intro f₁
  induction f₁ with
  | zero =>
    intro f₂ j h1 h2
    cases f₂ with
    | zero => rfl
    | succ f₂ =>
      simp only [plateauEnd]
      rw [if_neg (by omega)]
  | succ f₁ ih =>
    intro f₂ j h1 h2
    cases f₂ with
    | zero =>
      simp only [plateauEnd]
      rw [if_neg (by omega)]
    | succ f₂ =>
      simp only [plateauEnd]
      by_cases hc : j < iMax ∧ x.getD j 0 = v
      · rw [if_pos hc, if_pos hc]
        exact ih (f₂) (j + 1) (by omega) (by omega)
      · rw [if_neg hc, if_neg hc]

/-- The plateau scan never moves left. -/
theorem plateauEnd_ge (x : List ℚ) (v : ℚ) (iMax : ℕ) :
    ∀ (fuel j : ℕ), j ≤ plateauEnd x v iMax fuel j := by
  intro fuel
  induction fuel with
  | zero => intro j; exact le_refl j
  | succ fuel ih =>
    intro j
    show j ≤ if _ then _ else j
    split
    · exact le_trans (by omega) (ih (j + 1))
    · exact le_refl j

/-- The plateau scan never passes `iMax` when started at or below it. -/
theorem plateauEnd_le (x : List ℚ) (v : ℚ) (iMax : ℕ) :
    ∀ (fuel j : ℕ), j ≤ iMax → plateauEnd x v iMax fuel j ≤ iMax := by
  intro fuel
  induction fuel with
  | zero => intro j hj; exact hj
  | succ fuel ih =>
    intro j hj
    show (if _ then _ else j) ≤ iMax
    split
    · exact ih (j + 1) (by omega)
    · exact hj

/-- Sufficient fuel makes the scan loop fuel-independent: the index strictly
increases each iteration, so at most `iMax - i` iterations happen. -/
theorem lmLoop_fuel (x : List ℚ) (iMax : ℕ) :
    ∀ (f₁ f₂ i : ℕ), iMax - i ≤ f₁ → iMax - i ≤ f₂ →
      lmLoop x iMax f₁ i = lmLoop x iMax f₂ i := by
  intro f₁
  induction f₁ with
  | zero =>
    intro f₂ i h1 h2
    cases f₂ with
    | zero => rfl
    | succ f₂ =>
      simp only [lmLoop]
      rw [if_neg (by omega)]
  | succ f₁ ih =>
    intro f₂ i h1 h2
    cases f₂ with
    | zero =>
      simp only [lmLoop]
      rw [if_neg (by omega)]
    | succ f₂ =>
      simp only [lmLoop]
      by_cases hi : i < iMax
      · rw [if_pos hi, if_pos hi]
        have hge := plateauEnd_ge x (x.getD i 0) iMax iMax (i + 1)
        split
        · rw [ih f₂ _ (by omega) (by omega)]
        · rw [ih f₂ _ (by omega) (by omega)]
      · rw [if_neg hi, if_neg hi]

/-- Every emitted local-maximum index lies in `[i, iMax)`. -/
theorem lmLoop_mem_bounds (x : List ℚ) (iMax : ℕ) :
    ∀ (fuel i : ℕ), ∀ m ∈ lmLoop x iMax fuel i, i ≤ m ∧ m < iMax := by
  intro fuel
  induction fuel with
  | zero =>
    intro i m hm
    simp [lmLoop] at hm
  | succ fuel ih =>
    intro i m hm
    rw [lmLoop] at hm
    split at hm
    · rename_i hlt
      have h1 := plateauEnd_ge x (x.getD i 0) iMax iMax (i + 1)
      have h2 := plateauEnd_le x (x.getD i 0) iMax iMax (i + 1) (by omega)
      split at hm
      · rcases List.mem_cons.mp hm with hm | hm
        · subst hm
          omega
        · have := ih _ m hm
          omega
      · have := ih _ m hm
        omega
    · simp at hm

/-- The emitted local-maximum indices are strictly increasing. -/
theorem lmLoop_pairwise (x : List ℚ) (iMax : ℕ) :
    ∀ (fuel i : ℕ), (lmLoop x iMax fuel i).Pairwise (· < ·) := by
  intro fuel
  induction fuel with
  | zero =>
    intro i
    exact List.Pairwise.nil
  | succ fuel ih =>
    intro i
    rw [lmLoop]
    split
    · rename_i hlt
      have h1 := plateauEnd_ge x (x.getD i 0) iMax iMax (i + 1)
      split
      · refine List.Pairwise.cons ?_ (ih _)
        intro b hb
        have hbnd := lmLoop_mem_bounds x iMax fuel
          (plateauEnd x (x.getD i 0) iMax iMax (i + 1) + 1) b hb
        omega
      · exact ih _
    · exact List.Pairwise.nil

/-- `localMaxima` indices lie strictly between the endpoints. -/
theorem localMaxima_mem_bounds (x : List ℚ) :
    ∀ m ∈ localMaxima x, 1 ≤ m ∧ m + 1 < x.length := by
  intro m hm
  have := lmLoop_mem_bounds x (x.length - 1) x.length 1 m hm
  omega

/-- `localMaxima` is strictly increasing. -/
theorem localMaxima_pairwise (x : List ℚ) :
    (localMaxima x).Pairwise (· < ·) :=
  lmLoop_pairwise x (x.length - 1) x.length 1

/-- A position kept after the selection loop was kept before it. -/
theorem selectFold_mono (peaks : List ℕ) (d : ℕ) (order : List ℕ)
    (keep : ℕ → Bool) (k : ℕ) (h : selectFold peaks d keep order k = true) :
    keep k = true := by
  induction order generalizing keep with
  | nil => exact h
  | cons j rest ih =>
    have h2 := ih _ h
    by_cases hkj : keep j <;> simp [hkj] at h2
    · unfold removeNear at h2
      split at h2
      · exact h2
      · split at h2
        · exact absurd h2 (by simp)
        · exact h2
    · exact h2

/-- Unfolding lemma for one step of the selection loop. -/
theorem selectFold_cons (peaks : List ℕ) (d : ℕ) (keep : ℕ → Bool) (j : ℕ)
    (rest : List ℕ) :
    selectFold peaks d keep (j :: rest) =
      selectFold peaks d
        (if keep j then removeNear peaks d keep j else keep) rest := rfl

/-- Any two distinct positions both processed by the selection loop and both
still kept at the end hold peaks at least `d` apart. -/
theorem selectFold_dist (peaks : List ℕ) (d : ℕ) (order : List ℕ) :
    ∀ (keep : ℕ → Bool) (a b : ℕ), a ≠ b → a ∈ order → b ∈ order →
      selectFold peaks d keep order a = true →
      selectFold peaks d keep order b = true →
      d ≤ Nat.dist (peaks.getD a 0) (peaks.getD b 0) := by
  induction order with
  | nil =>
    intro keep a b _ ha _ _ _
    simp at ha
  | cons j rest ih =>
    intro keep a b hab ha hb hka hkb
    rw [selectFold_cons] at hka hkb
    by_cases hkj : keep j = true
    · rw [if_pos hkj] at hka hkb
      rcases List.mem_cons.mp ha with haj | ha <;>
        rcases List.mem_cons.mp hb with hbj | hb
      · exact absurd (haj.trans hbj.symm) hab
      · -- a = j: when j was processed it evicted everything within d of it,
        -- so the surviving b must be at distance at least d.
        subst haj
        have h1 := selectFold_mono peaks d rest _ b hkb
        unfold removeNear at h1
        rw [if_neg (fun h => hab h.symm)] at h1
        split at h1
        · exact absurd h1 (by simp)
        · rw [Nat.dist_comm]
          omega
      · subst hbj
        have h1 := selectFold_mono peaks d rest _ a hka
        unfold removeNear at h1
        rw [if_neg hab] at h1
        split at h1
        · exact absurd h1 (by simp)
        · omega
      · exact ih _ a b hab ha hb hka hkb
    · rw [if_neg hkj] at hka hkb
      rcases List.mem_cons.mp ha with haj | ha <;>
        rcases List.mem_cons.mp hb with hbj | hb
      · exact absurd (haj.trans hbj.symm) hab
      · subst haj
        exact absurd (selectFold_mono peaks d rest _ _ hka) hkj
      · subst hbj
        exact absurd (selectFold_mono peaks d rest _ _ hkb) hkj
      · exact ih _ a b hab ha hb hka hkb

/-- Every position below the priority-list length is visited by the
selection order. -/
theorem mem_selectOrder (v : List ℚ) (k : ℕ) (hk : k < v.length) :
    k ∈ (argsortAsc v).reverse := by
  rw [List.mem_reverse]
  unfold argsortAsc
  exact (List.perm_insertionSort _ _).mem_iff.mpr (List.mem_range.mpr hk)

/-- Surviving peaks are peaks of the input list. -/
theorem selectByPeakDistance_subset (x : List ℚ) (peaks : List ℕ) (d : ℕ) :
    ∀ p ∈ selectByPeakDistance x peaks d, p ∈ peaks := by
  intro p hp
  unfold selectByPeakDistance at hp
  obtain ⟨k, hk, rfl⟩ := List.mem_map.mp hp
  obtain ⟨hk_mem, -⟩ := List.mem_filter.mp hk
  have hkL := List.mem_range.mp hk_mem
  rw [List.getD_eq_getElem _ _ hkL]
  exact List.getElem_mem hkL

/-- For a strictly increasing peak list, the surviving peaks are strictly
increasing and consecutive (indeed all) survivors are at least `d` apart. -/
theorem selectByPeakDistance_pairwise (x : List ℚ) (peaks : List ℕ) (d : ℕ)
    (hsorted : peaks.Pairwise (· < ·)) :
    (selectByPeakDistance x peaks d).Pairwise
      (fun p q => p < q ∧ p + d ≤ q) := by
  unfold selectByPeakDistance
  apply List.pairwise_map.mpr
  have hrange := (List.pairwise_lt_range peaks.length).filter
    (fun k => selectFold peaks d (fun _ => true)
      ((argsortAsc (peaks.map fun p => x.getD p 0)).reverse) k)
  refine List.Pairwise.imp_of_mem ?_ hrange
  intro a b ha hb hlt
  obtain ⟨ha_mem, hka⟩ := List.mem_filter.mp ha
  obtain ⟨hb_mem, hkb⟩ := List.mem_filter.mp hb
  have haL := List.mem_range.mp ha_mem
  have hbL := List.mem_range.mp hb_mem
  have hplt : peaks.getD a 0 < peaks.getD b 0 := by
    rw [List.getD_eq_getElem _ _ haL, List.getD_eq_getElem _ _ hbL]
    exact List.pairwise_iff_getElem.mp hsorted a b haL hbL hlt
  have hlen : a < (peaks.map fun p => x.getD p 0).length := by
    rw [List.length_map]; exact haL
  have hlen' : b < (peaks.map fun p => x.getD p 0).length := by
    rw [List.length_map]; exact hbL
  have hdist := selectFold_dist peaks d _ _ a b (Nat.ne_of_lt hlt)
    (mem_selectOrder _ a hlen) (mem_selectOrder _ b hlen') hka hkb
  have hde : Nat.dist (peaks.getD a 0) (peaks.getD b 0) =
      peaks.getD b 0 - peaks.getD a 0 := Nat.dist_eq_sub_of_le (le_of_lt hplt)
  exact ⟨hplt, by omega⟩

/-- The argmax scan stays below the end of the scanned range. -/
theorem argmaxAux_lt (t : List ℚ) :
    ∀ (i best : ℕ) (bv : ℚ), best < i → argmaxAux t i best bv < i + t.length := by
  induction t with
  | nil =>
    intro i best bv h
    simpa [argmaxAux] using h
  | cons a t ih =>
    intro i best bv h
    rw [argmaxAux]
    split
    · have := ih (i + 1) i a (by omega)
      simp only [List.length_cons]
      omega
    · have := ih (i + 1) best bv (by omega)
      simp only [List.length_cons]
      omega

/-- `np.argmax` of a nonempty list is a valid index. -/
theorem argmaxIdx_lt_length (l : List ℚ) (h : l ≠ []) :
    argmaxIdx l < l.length := by
  cases l with
  | nil => exact absurd rfl h
  | cons a t =>
    have := argmaxAux_lt t 1 0 a (by omega)
    simp only [argmaxIdx, List.length_cons]
    omega

/-- The argmax scan never moves off `best` when all candidates equal the
running maximum. -/
theorem argmaxAux_replicate_one (n : ℕ) :
    ∀ (i best : ℕ), argmaxAux (List.replicate n 1) i best 1 = best := by
  induction n with
  | zero => intro i best; rfl
  | succ n ih =>
    intro i best
    rw [List.replicate_succ, argmaxAux, if_neg (by norm_num)]
    exact ih (i + 1) best

/-- `np.argmax(np.ones(k)) = 0`: on an all-ones vector the first index wins. -/
theorem argmaxIdx_replicate_one (n : ℕ) :
    argmaxIdx (List.replicate n 1) = 0 := by
  cases n with
  | zero => rfl
  | succ n =>
    rw [List.replicate_succ, argmaxIdx, argmaxAux_replicate_one]

/-- The argmin scan stays below the end of the scanned range. -/
theorem argminAux_lt (t : List ℚ) :
    ∀ (i best : ℕ) (bv : ℚ), best < i → argminAux t i best bv < i + t.length := by
  induction t with
  | nil =>
    intro i best bv h
    simpa [argminAux] using h
  | cons a t ih =>
    intro i best bv h
    rw [argminAux]
    split
    · have := ih (i + 1) i a (by omega)
      simp only [List.length_cons]
      omega
    · have := ih (i + 1) best bv (by omega)
      simp only [List.length_cons]
      omega

/-- `np.argmin` of a nonempty list is a valid index. -/
theorem argminIdx_lt_length (l : List ℚ) (h : l ≠ []) :
    argminIdx l < l.length := by
  cases l with
  | nil => exact absurd rfl h
  | cons a t =>
    have := argminAux_lt t 1 0 a (by omega)
    simp only [argminIdx, List.length_cons]
    omega

/-- A found toe-off index lies in the half-open search window `[s, e)`. -/
theorem find_toe_off_in_window_bounds (g : List ℚ) (s e t : ℕ)
    (h : find_toe_off_in_window g s e = some t) : s ≤ t ∧ t < e := by
  unfold find_toe_off_in_window at h
  have hwlen : (toWindow g s e).length ≤ e - s := by
    simp [toWindow, List.length_take]
  split at h
  · exact absurd h (by simp)
  · rename_i hlen
    rw [not_lt] at hlen
    split at h
    · rename_i hmin
      have hne : toWindow g s e ≠ [] := by
        intro hnil
        rw [hnil] at hlen
        simp at hlen
      have harg := argminIdx_lt_length _ hne
      rw [Option.some_inj] at h
      omega
    · rename_i hmin
      rw [Option.some_inj] at h
      have hne : toMinima g s e ≠ [] := by
        intro hnil
        rw [hnil] at hmin
        simp at hmin
      have hidx : argmaxIdx (List.replicate (toMinima g s e).length (1 : ℚ)) <
          (toMinima g s e).length := by
        rw [argmaxIdx_replicate_one]
        exact List.length_pos.mpr hne
      have hmem : (toMinima g s e).getD
          (argmaxIdx (List.replicate (toMinima g s e).length 1)) 0 ∈
          toMinima g s e := by
        rw [List.getD_eq_getElem _ _ hidx]
        exact List.getElem_mem hidx
      have hloc := selectByPeakDistance_subset _ _ _ _ hmem
      have hbnd := localMaxima_mem_bounds _ _ hloc
      rw [List.length_map] at hbnd
      omega

/-- The toe-off actually returned in the local-minima branch is the first
(lowest-index) surviving minimum: the all-ones prominence fallback makes
`np.argmax` pick index 0. -/
theorem find_toe_off_in_window_first (g : List ℚ) (s e : ℕ) :
    find_toe_off_in_window g s e =
      (if (toWindow g s e).length < 3 then none
       else
         match toMinima g s e with
         | [] => some (s + argminIdx (toWindow g s e))
         | m :: _ => some (s + m)) := by
  unfold find_toe_off_in_window
  split
  · rfl
  · cases hmin : toMinima g s e with
    | nil => rfl
    | cons m rest =>
      rw [show ((m :: rest : List ℕ).isEmpty) = false from rfl]
      rw [argmaxIdx_replicate_one]
      rfl

/-- Every event produced by `_detect_toe_offs` from a strictly increasing,
`dmin`-separated heel-strike list pairs two of its heel strikes and places
the toe-off strictly between them. -/
theorem detect_toe_offs_mem (g : List ℚ) (dmin : ℕ) :
    ∀ (l : List ℕ), l.Pairwise (fun p q => p < q ∧ p + dmin ≤ q) →
      ∀ ev ∈ detect_toe_offs l g,
        ev.hs ∈ l ∧ ev.next_hs ∈ l ∧ ev.hs < ev.to_idx ∧
          ev.to_idx < ev.next_hs ∧ ev.hs + dmin ≤ ev.next_hs := by
  intro l
  induction l with
  | nil =>
    intro _ ev hev
    simp [detect_toe_offs] at hev
  | cons a rest ih =>
    cases rest with
    | nil =>
      intro _ ev hev
      simp [detect_toe_offs] at hev
    | cons b rest' =>
      intro hp ev hev
      have hrel : a < b ∧ a + dmin ≤ b :=
        (List.pairwise_cons.mp hp).1 b (List.mem_cons_self b rest')
      have htail : (b :: rest').Pairwise (fun p q => p < q ∧ p + dmin ≤ q) :=
        (List.pairwise_cons.mp hp).2
      rw [detect_toe_offs] at hev
      rcases List.mem_append.mp hev with hev | hev
      · split at hev
        · simp at hev
        · rename_i hse
          split at hev
          · simp at hev
          · rename_i t hfind
            rw [List.mem_singleton] at hev
            subst hev
            obtain ⟨hst, hte⟩ := find_toe_off_in_window_bounds g _ _ t hfind
            have h1 : a + 1 ≤ toSearchStart a b := le_max_right _ _
            have h2 : toSearchEnd a b ≤ b - 1 := min_le_right _ _
            exact ⟨List.mem_cons_self a _,
              List.mem_cons_of_mem a (List.mem_cons_self b rest'),
              by dsimp only; omega, by dsimp only; omega,
              by dsimp only; omega⟩
      · obtain ⟨hm1, hm2, h3, h4, h5⟩ := ih htail ev hev
        exact ⟨List.mem_cons_of_mem a hm1, List.mem_cons_of_mem a hm2,
          h3, h4, h5⟩

/-- Events of `_detect_toe_offs` are ordered by strictly increasing
heel-strike index. -/
theorem detect_toe_offs_chain (g : List ℚ) (dmin : ℕ) :
    ∀ (l : List ℕ), l.Pairwise (fun p q => p < q ∧ p + dmin ≤ q) →
      (detect_toe_offs l g).Chain' (fun e₁ e₂ => e₁.hs < e₂.hs) := by
  intro l
  induction l with
  | nil =>
    intro _
    simp [detect_toe_offs]
  | cons a rest ih =>
    cases rest with
    | nil =>
      intro _
      simp [detect_toe_offs]
    | cons b rest' =>
      intro hp
      have htail : (b :: rest').Pairwise (fun p q => p < q ∧ p + dmin ≤ q) :=
        (List.pairwise_cons.mp hp).2
      have hfirst := (List.pairwise_cons.mp hp).1
      rw [detect_toe_offs]
      refine List.Chain'.append ?_ (ih htail) ?_
      · split
        · exact List.chain'_nil
        · split
          · exact List.chain'_nil
          · exact List.chain'_singleton _
      · intro e₁ he₁ e₂ he₂
        have he₂' : e₂ ∈ detect_toe_offs (b :: rest') g :=
          List.mem_of_mem_head? he₂
        have hhs := (detect_toe_offs_mem g dmin (b :: rest') htail e₂ he₂').1
        have he₁' : e₁ ∈
            (if toSearchStart a b ≥ toSearchEnd a b then []
             else
               match find_toe_off_in_window g (toSearchStart a b)
                   (toSearchEnd a b) with
               | none => []
               | some to_index => [⟨a, to_index, b⟩]) := by
          revert he₁
          split
          · simp
          · split
            · simp
            · intro he₁
              rw [List.getLast?_singleton] at he₁
              rw [Option.mem_def, Option.some_inj] at he₁
              subst he₁
              exact List.mem_singleton_self _
        have hhs1 : e₁.hs = a := by
          revert he₁'
          split
          · simp
          · split
            · simp
            · intro he₁'
              rw [List.mem_singleton] at he₁'
              subst he₁'
              rfl
        rw [hhs1]
        exact (hfirst e₂.hs hhs).1

unseal Rat.add Rat.mul Rat.sub Rat.inv Rat.ofScientific in
/-- At the spec defaults (125 Hz, 0.4 s) the heel-strike separation is 50
samples. -/
theorem hs_min_distance_samples_eq : hs_min_distance_samples = 50 := by decide

/-- Detected heel strikes are strictly increasing and separated by at least
`_hs_min_distance_samples`. -/
theorem detect_heel_strikes_pairwise (acc_z : List ℚ) :
    (detect_heel_strikes acc_z).Pairwise
      (fun p q => p < q ∧ p + hs_min_distance_samples ≤ q) :=
  selectByPeakDistance_pairwise _ _ _ ((localMaxima_pairwise acc_z).filter _)

/-- Detected heel strikes lie strictly inside the stream. -/
theorem detect_heel_strikes_mem (acc_z : List ℚ) :
    ∀ p ∈ detect_heel_strikes acc_z, 1 ≤ p ∧ p + 1 < acc_z.length := by
  intro p hp
  have h1 := selectByPeakDistance_subset _ _ _ p hp
  exact localMaxima_mem_bounds _ p (List.mem_filter.mp h1).1

/-- C2: every StepEvent triple `(hs, to, next_hs)` produced by
`GaitEventDetector.detect` on a stream of length `L` satisfies
`0 ≤ hs < to < next_hs < L` and `next_hs - hs ≥ 10` samples, and the
produced list is ordered by increasing heel-strike index.  (`0 ≤ hs` is
automatic for the ℕ-valued index.) -/
theorem c2_detect_step_event_invariants (imu_data : List Sample8) :
    (∀ ev ∈ gaitDetect imu_data,
        ev.hs < ev.to_idx ∧ ev.to_idx < ev.next_hs ∧
          ev.next_hs < imu_data.length ∧ 10 ≤ ev.next_hs - ev.hs) ∧
      (gaitDetect imu_data).Chain' (fun e₁ e₂ => e₁.hs < e₂.hs) := by
  unfold gaitDetect
  split
  · simp
  · split
    · simp
    · constructor
      · intro ev hev
        have hpw := detect_heel_strikes_pairwise (imu_data.map (·.c4))
        have hmem := detect_toe_offs_mem (imu_data.map (·.c6))
          hs_min_distance_samples _ hpw ev hev
        obtain ⟨h_hs, h_next, h1, h2, h3⟩ := hmem
        rw [hs_min_distance_samples_eq] at h3
        have hnext := detect_heel_strikes_mem _ ev.next_hs h_next
        rw [List.length_map] at hnext
        exact ⟨h1, h2, by omega, by omega⟩
      · apply detect_toe_offs_chain
        apply detect_heel_strikes_pairwise

set_option maxRecDepth 100000 in
set_option maxHeartbeats 1000000 in
unseal Rat.add Rat.mul Rat.sub Rat.inv Rat.ofScientific in
/-- Witness for C2: on `sampleStream` the detector produces the event
`(20, 40, 80)`, and the invariants hold at it. -/
theorem c2_detect_step_event_invariants_witness :
    (⟨20, 40, 80⟩ : GaitEvent) ∈ gaitDetect sampleStream ∧
      (20 < 40 ∧ 40 < 80 ∧ 80 < sampleStream.length ∧ 10 ≤ 80 - 20) := by
  have hlist : gaitDetect sampleStream = [⟨20, 40, 80⟩] := by decide
  have hmem : (⟨20, 40, 80⟩ : GaitEvent) ∈ gaitDetect sampleStream := by
    rw [hlist]
    exact List.mem_singleton_self _
  exact ⟨hmem,
    (c2_detect_step_event_invariants sampleStream).1 ⟨20, 40, 80⟩ hmem⟩

set_option maxRecDepth 100000 in
unseal Rat.add Rat.mul Rat.sub Rat.inv Rat.ofScientific in
/-- Counterexample to C1.  For the heel-strike pair (0, 30) the clamped
window is the usable `[3, 24)`; the code emits toe-off index 4 (the first
local minimum, value -1), while the most-prominent local minimum sits at
index 11 (value -100).  And for the pair (0, 4) the clamped window `[1, 3)`
is usable (`search_start < search_end`) yet, being shorter than 3 samples,
yields no StepEvent at all, while the claimed rule would fall back to the
global minimum at index 2. -/
theorem c1_counterexample :
    (toSearchStart 0 30 = 3 ∧ toSearchEnd 0 30 = 24 ∧
      detect_toe_offs [0, 30] gyroC1 = [⟨0, 4, 30⟩] ∧
      toeOffMostProminent gyroC1 3 24 = some 11) ∧
    (toSearchStart 0 4 = 1 ∧ toSearchEnd 0 4 = 3 ∧
      detect_toe_offs [0, 4] gyroC1short = [] ∧
      toeOffMostProminent gyroC1short 1 3 = some 2) := by
  decide

/-- C1 amended: for every consecutive heel-strike pair whose clamped search
window is usable and at least 3 samples long, the detector selects as
toe-off the first (lowest-index) local minimum surviving the 5-sample
distance filter of `find_peaks` (the all-ones prominence fallback makes
`argmax` pick index 0); when that filter returns no minima the global
minimum of the window is used; usable windows shorter than 3 samples are
skipped and yield no StepEvent. -/
theorem c1_toe_off_first_minimum_amended (gyro_y : List ℚ) (s e : ℕ)
    (a b : ℕ) (rest : List ℕ) :
    find_toe_off_in_window gyro_y s e =
      (if (toWindow gyro_y s e).length < 3 then none
       else
         match toMinima gyro_y s e with
         | [] => some (s + argminIdx (toWindow gyro_y s e))
         | m :: _ => some (s + m)) ∧
    detect_toe_offs (a :: b :: rest) gyro_y =
      (if toSearchStart a b ≥ toSearchEnd a b then []
       else
         match find_toe_off_in_window gyro_y (toSearchStart a b)
             (toSearchEnd a b) with
         | none => []
         | some to_index => [⟨a, to_index, b⟩]) ++
        detect_toe_offs (b :: rest) gyro_y :=
  ⟨find_toe_off_in_window_first gyro_y s e, rfl⟩

/-- The timing block leaves `gvi` untouched. -/
theorem timing_stats_block_gvi (m : List MetricRec) (s : SessionSummary) :
    (timing_stats_block m s).gvi = s.gvi := by
  simp only [timing_stats_block]
  split
  · split <;> rfl
  · split <;> rfl

/-- The knee block leaves `gvi` untouched on its success paths. -/
theorem knee_block_gvi (m : List MetricRec) (s s' : SessionSummary)
    (h : knee_block m s = .ok s') : s'.gvi = s.gvi := by
  simp only [knee_block] at h
  split at h
  · split at h
    · rw [Except.ok.injEq] at h
      subst h
      rfl
    · split at h
      · exact absurd h (by simp)
      · split at h
        · exact absurd h (by simp)
        · rw [Except.ok.injEq] at h
          subst h
          rfl
  · rw [Except.ok.injEq] at h
    subst h
    rfl

/-- The hip block leaves `gvi` untouched. -/
theorem hip_block_gvi (m : List MetricRec) (s : SessionSummary) :
    (hip_block m s).gvi = s.gvi := by
  simp only [hip_block]
  split
  · split <;> rfl
  · split <;> rfl

/-- The orientation block leaves `gvi` untouched. -/
theorem orientation_block_gvi (o : Option OrientInput) (s : SessionSummary) :
    (orientation_block o s).gvi = s.gvi := by
  rcases o with _ | o <;> rfl

/-- A fresh summary carries the 0 default in `gvi`. -/
theorem init_summary_gvi (md : Option SessionMetadata) (now : String) :
    (init_summary md now).gvi = 0 := by
  cases md <;> rfl

/-- The CV/GVI block stores exactly `gvi_code` when the incoming summary
still has the 0 default. -/
theorem cv_gvi_block_gvi (m : List MetricRec) (s : SessionSummary)
    (h : s.gvi = 0) : (cv_gvi_block m s).gvi = gvi_code m := by
  simp only [cv_gvi_block, gvi_code]
  by_cases hfc : ([calculate_cv (extract_field m (·.step_time)),
      calculate_cv (extract_field m (·.stance_time)),
      calculate_cv (extract_field m (·.swing_time))].filter
      fun c => decide (c > 0)).isEmpty = true
  · rw [if_pos hfc, if_pos hfc]
    split <;> exact h
  · rw [if_neg hfc, if_neg hfc]

/-- On the empty metrics list every CV is 0, so `gvi_code` is 0. -/
theorem gvi_code_nil : gvi_code [] = 0 := by
  unfold gvi_code
  have h1 : calculate_cv (extract_field [] (·.step_time)) = 0 := rfl
  have h2 : calculate_cv (extract_field [] (·.stance_time)) = 0 := rfl
  have h3 : calculate_cv (extract_field [] (·.swing_time)) = 0 := rfl
  rw [h1, h2, h3]
  simp only [List.filter_cons, List.filter_nil, decide_eq_true_eq]
  norm_num

/-- The stored GVI of a summary equals `gvi_code` whenever the aggregation
body succeeds (and also on the empty-input early return). -/
theorem session_summary_gvi_eq (m : List MetricRec) (o : Option OrientInput)
    (md : Option SessionMetadata) (now : String)
    (h : (session_try_body m o (init_summary md now)).isOk = true) :
    (calculate_session_summary m o md now).gvi = gvi_code m := by
  unfold calculate_session_summary
  split
  · rename_i hm
    rw [List.isEmpty_iff] at hm
    subst hm
    have hfld : ({ init_summary md now with status := SessionStatus.failed, is_processed := true } : SessionSummary).gvi = (init_summary md now).gvi := rfl
    rw [hfld, init_summary_gvi, gvi_code_nil]
  · cases hb : session_try_body m o (init_summary md now) with
    | error s =>
      rw [hb] at h
      exact Bool.noConfusion h
    | ok s =>
      show s.gvi = gvi_code m
      unfold session_try_body at hb
      cases hk : knee_block m (timing_stats_block m (init_summary md now)) with
      | error s' =>
        rw [hk] at hb
        simp at hb
      | ok s6 =>
        rw [hk] at hb
        have hb' : Except.ok (ε := SessionSummary)
            ({ orientation_block o (cv_gvi_block m (hip_block m s6)) with status := SessionStatus.completed, is_processed := true } :
              SessionSummary) = Except.ok s := hb
        injection hb' with hs
        subst hs
        have hfld : ({ orientation_block o (cv_gvi_block m (hip_block m s6)) with status := SessionStatus.completed, is_processed := true } : SessionSummary).gvi = (orientation_block o (cv_gvi_block m (hip_block m s6))).gvi := rfl
        rw [hfld, orientation_block_gvi]
        refine cv_gvi_block_gvi m _ ?_
        rw [hip_block_gvi, knee_block_gvi m _ s6 hk, timing_stats_block_gvi,
          init_summary_gvi]

/-- C4: for an empty per-step metrics list, `calculate_session_summary`
returns a summary with `status = failed`, `is_processed = true`, and every
numeric field at its documented zero default (`symmetry_index` at its
`None` default). -/
theorem c4_empty_metrics_failed_summary (o : Option OrientInput)
    (md : Option SessionMetadata) (now : String) :
    (calculate_session_summary [] o md now).status = SessionStatus.failed ∧
    (calculate_session_summary [] o md now).is_processed = true ∧
    (calculate_session_summary [] o md now).step_count = 0 ∧
    (calculate_session_summary [] o md now).duration = 0 ∧
    (calculate_session_summary [] o md now).cadence = 0 ∧
    (calculate_session_summary [] o md now).avg_step_time = 0 ∧
    (calculate_session_summary [] o md now).std_step_time = 0 ∧
    (calculate_session_summary [] o md now).avg_stance_time = 0 ∧
    (calculate_session_summary [] o md now).std_stance_time = 0 ∧
    (calculate_session_summary [] o md now).avg_swing_time = 0 ∧
    (calculate_session_summary [] o md now).std_swing_time = 0 ∧
    SessionSummary.stance_swing_ratio (calculate_session_summary [] o md now) = 0 ∧
    (calculate_session_summary [] o md now).knee_angle_mean = 0 ∧
    (calculate_session_summary [] o md now).knee_angle_std = 0 ∧
    (calculate_session_summary [] o md now).knee_angle_max = 0 ∧
    (calculate_session_summary [] o md now).knee_angle_min = 0 ∧
    (calculate_session_summary [] o md now).knee_amplitude = 0 ∧
    (calculate_session_summary [] o md now).avg_knee_rom = 0 ∧
    (calculate_session_summary [] o md now).hip_angle_mean = 0 ∧
    (calculate_session_summary [] o md now).hip_angle_std = 0 ∧
    (calculate_session_summary [] o md now).hip_angle_max = 0 ∧
    (calculate_session_summary [] o md now).hip_angle_min = 0 ∧
    (calculate_session_summary [] o md now).hip_amplitude = 0 ∧
    (calculate_session_summary [] o md now).avg_hip_rom = 0 ∧
    (calculate_session_summary [] o md now).cv_step_time = 0 ∧
    (calculate_session_summary [] o md now).cv_stance_time = 0 ∧
    (calculate_session_summary [] o md now).cv_knee_angle = 0 ∧
    (calculate_session_summary [] o md now).cv_hip_angle = 0 ∧
    (calculate_session_summary [] o md now).gvi = 0 ∧
    (calculate_session_summary [] o md now).avg_roll = 0 ∧
    (calculate_session_summary [] o md now).avg_pitch = 0 ∧
    (calculate_session_summary [] o md now).avg_yaw = 0 ∧
    (calculate_session_summary [] o md now).avg_cadence_per_step = 0 ∧
    (calculate_session_summary [] o md now).symmetry_index = none := by
  cases md <;> exact ⟨rfl, rfl, rfl, rfl, rfl, rfl, rfl, rfl, rfl, rfl, rfl, rfl, rfl, rfl, rfl, rfl, rfl, rfl, rfl, rfl, rfl, rfl, rfl, rfl, rfl, rfl, rfl, rfl, rfl, rfl, rfl, rfl, rfl, rfl⟩

/-- `_calculate_cv` on the step times `[-1, -3]` is `-50`. -/
theorem calculate_cv_c5_step : calculate_cv [-1, -3] = -50 := by
  have hm : npMean [(-1 : ℚ), -3] = -2 := by
    norm_num [npMean, List.sum_cons, List.sum_nil]
  have hv : npVar [(-1 : ℚ), -3] = 1 := by
    norm_num [npVar, npMean, List.sum_cons, List.sum_nil]
  unfold calculate_cv npStdR
  rw [hm, hv]
  rw [if_neg (by norm_num), if_neg (by norm_num)]
  rw [show ((1 : ℚ) : ℝ) = (1 : ℝ) by norm_cast, Real.sqrt_one,
    show ((-2 : ℚ) : ℝ) = (-2 : ℝ) by norm_cast]
  norm_num

/-- `_calculate_cv` on the stance times `[1, 1]` is exactly `0`. -/
theorem calculate_cv_c5_stance : calculate_cv [1, 1] = 0 := by
  have hm : npMean [(1 : ℚ), 1] = 1 := by
    norm_num [npMean, List.sum_cons, List.sum_nil]
  have hv : npVar [(1 : ℚ), 1] = 0 := by
    norm_num [npVar, npMean, List.sum_cons, List.sum_nil]
  unfold calculate_cv npStdR
  rw [hm, hv]
  rw [if_neg (by norm_num), if_neg (by norm_num)]
  rw [show ((0 : ℚ) : ℝ) = (0 : ℝ) by norm_cast, Real.sqrt_zero]
  norm_num

/-- `_calculate_cv` on the swing times `[1, 3]` is `50`. -/
theorem calculate_cv_c5_swing : calculate_cv [1, 3] = 50 := by
  have hm : npMean [(1 : ℚ), 3] = 2 := by
    norm_num [npMean, List.sum_cons, List.sum_nil]
  have hv : npVar [(1 : ℚ), 3] = 1 := by
    norm_num [npVar, npMean, List.sum_cons, List.sum_nil]
  unfold calculate_cv npStdR
  rw [hm, hv]
  rw [if_neg (by norm_num), if_neg (by norm_num)]
  rw [show ((1 : ℚ) : ℝ) = (1 : ℝ) by norm_cast, Real.sqrt_one,
    show ((2 : ℚ) : ℝ) = (2 : ℝ) by norm_cast]
  norm_num

/-- Counterexample to C5.  On `metricsC5` the three CVs are
`(-50, 0, +50)`: the source filters with `cv > 0` and stores
`GVI = mean [50] = 50`, while the claimed "mean of the non-zero CVs" is
`mean [-50, 50] = 0`. -/
theorem c5_gvi_counterexample :
    (calculate_session_summary metricsC5 none none "").gvi = 50 ∧
      gvi_spec_mean_nonzero metricsC5 = 0 := by
  have e1 : extract_field metricsC5 (·.step_time) = [-1, -3] := rfl
  have e2 : extract_field metricsC5 (·.stance_time) = [1, 1] := rfl
  have e3 : extract_field metricsC5 (·.swing_time) = [1, 3] := rfl
  have hok : (session_try_body metricsC5 none (init_summary none "")).isOk =
      true := rfl
  constructor
  · rw [session_summary_gvi_eq metricsC5 none none "" hok]
    unfold gvi_code
    rw [e1, e2, e3, calculate_cv_c5_step, calculate_cv_c5_stance,
      calculate_cv_c5_swing]
    simp only [List.filter_cons, List.filter_nil, decide_eq_true_eq]
    norm_num [meanR, List.sum_cons, List.sum_nil]
  · unfold gvi_spec_mean_nonzero
    rw [e1, e2, e3, calculate_cv_c5_step, calculate_cv_c5_stance,
      calculate_cv_c5_swing]
    simp only [List.filter_cons, List.filter_nil, decide_eq_true_eq]
    norm_num [meanR, List.sum_cons, List.sum_nil]

/-- C5 amended: on every input on which the aggregation body succeeds, the
stored session GVI is the arithmetic mean of the strictly positive CVs
among {step-time CV, stance-time CV, swing-time CV} (CVs that are zero or
negative are excluded), and 0 when none is strictly positive; a CV itself
is 0 when the metric list is empty or its mean is 0. -/
theorem c5_gvi_positive_mean_amended (m : List MetricRec)
    (o : Option OrientInput) (md : Option SessionMetadata) (now : String)
    (h : (session_try_body m o (init_summary md now)).isOk = true) :
    (calculate_session_summary m o md now).gvi = gvi_code m :=
  session_summary_gvi_eq m o md now h

/-- Witness for the amended C5 at the concrete `metricsC5`. -/
theorem c5_gvi_positive_mean_amended_witness :
    (session_try_body metricsC5 none (init_summary none "")).isOk = true ∧
      (calculate_session_summary metricsC5 none none "").gvi =
        gvi_code metricsC5 :=
  ⟨rfl, c5_gvi_positive_mean_amended metricsC5 none none "" rfl⟩

/-- C6: `calculate_session_summary` is a total function of its inputs (the
embedding's type already rules out an escaping exception), and whenever the
aggregation body raises — modelled as the `.error` result carrying the
partially-built summary — the caller receives a summary degraded to
`status = stopped` with `is_processed = true` instead of a propagated
exception. -/
theorem c6_exception_degrades_to_stopped (m : List MetricRec)
    (o : Option OrientInput) (md : Option SessionMetadata) (now : String)
    (h : ∃ s, session_try_body m o (init_summary md now) = .error s) :
    (calculate_session_summary m o md now).status = SessionStatus.stopped ∧
      (calculate_session_summary m o md now).is_processed = true := by
  obtain ⟨s, hs⟩ := h
  unfold calculate_session_summary
  split
  · rename_i hm
    rw [List.isEmpty_iff] at hm
    subst hm
    have hok : (session_try_body [] o (init_summary md now)).isOk = true := rfl
    rw [hs] at hok
    exact Bool.noConfusion hok
  · cases hb : session_try_body m o (init_summary md now) with
    | ok s' =>
      rw [hb] at hs
      exact absurd hs (by simp)
    | error s' => exact ⟨rfl, rfl⟩

/-- Witness for C6: on `metricsC6` the aggregation body raises, and the
returned summary is `stopped` and processed. -/
theorem c6_exception_degrades_to_stopped_witness :
    (∃ s, session_try_body metricsC6 none (init_summary none "") =
        .error s) ∧
      ((calculate_session_summary metricsC6 none none "").status =
          SessionStatus.stopped ∧
        (calculate_session_summary metricsC6 none none "").is_processed =
          true) :=
  ⟨⟨_, rfl⟩, c6_exception_degrades_to_stopped metricsC6 none none "" ⟨_, rfl⟩⟩

/-- C3: for every StepEvent with `hs < to < next_hs` and a positive
sampling rate, the computed timings satisfy
`stance_time + swing_time = step_time` exactly (hence within any floating
tolerance) and `0 < stance_time < step_time`. -/
theorem c3_step_timing_relations (hs_idx to_idx next_hs_idx fs : ℕ)
    (h1 : hs_idx < to_idx) (h2 : to_idx < next_hs_idx) (hfs : 0 < fs) :
    (calculate_single_step_timings hs_idx to_idx next_hs_idx fs).stance_time +
        (calculate_single_step_timings hs_idx to_idx next_hs_idx fs).swing_time =
      (calculate_single_step_timings hs_idx to_idx next_hs_idx fs).step_time ∧
    0 < (calculate_single_step_timings hs_idx to_idx next_hs_idx fs).stance_time ∧
    (calculate_single_step_timings hs_idx to_idx next_hs_idx fs).stance_time <
      (calculate_single_step_timings hs_idx to_idx next_hs_idx fs).step_time := by
  have hfs' : (0 : ℚ) < fs := by exact_mod_cast hfs
  have hht : (hs_idx : ℚ) < to_idx := by exact_mod_cast h1
  have htn : (to_idx : ℚ) < next_hs_idx := by exact_mod_cast h2
  unfold calculate_single_step_timings
  refine ⟨?_, ?_, ?_⟩
  · rw [div_add_div_same]
    congr 1
    ring
  · apply div_pos (by linarith) hfs'
  · rw [div_lt_div_iff_of_pos_right hfs']
    linarith

/-- Witness for C3 at the event `(0, 1, 2)` and the default 125 Hz rate. -/
theorem c3_step_timing_relations_witness :
    (0 < 1 ∧ 1 < 2 ∧ 0 < 125) ∧
      ((calculate_single_step_timings 0 1 2 125).stance_time +
          (calculate_single_step_timings 0 1 2 125).swing_time =
        (calculate_single_step_timings 0 1 2 125).step_time ∧
      0 < (calculate_single_step_timings 0 1 2 125).stance_time ∧
      (calculate_single_step_timings 0 1 2 125).stance_time <
        (calculate_single_step_timings 0 1 2 125).step_time) :=
  ⟨⟨by decide, by decide, by decide⟩,
    c3_step_timing_relations 0 1 2 125 (by decide) (by decide) (by decide)⟩

unseal Rat.add Rat.mul Rat.sub Rat.inv Rat.ofScientific in
/-- The 0-100% gait-cycle axis has exactly 100 nodes. -/
theorem linspace_100_length : (linspace 0 100 100).length = 100 := by decide

unseal Rat.add Rat.mul Rat.sub Rat.inv Rat.ofScientific in
/-- Counterexample to C8: the single-sample curve `[5]` has fewer than 2
points, yet the normalization returns one hundred copies of `5`, not the
claimed zeroed 100-point default. -/
theorem c8_counterexample :
    ([(5 : ℚ)].length < 2) ∧
      normalize_to_100_points [5] = List.replicate 100 5 ∧
      normalize_to_100_points [5] ≠ List.replicate 100 0 := by
  refine ⟨by decide, rfl, ?_⟩
  intro h
  have h0 := congrArg (fun l => l.getD 0 0) h
  simp [normalize_to_100_points] at h0

/-- C8 amended: the empty slice yields the zeroed 100-point default, a
single-sample slice yields one hundred copies of that sample, and every
slice with at least 2 points is resampled to exactly 100 linearly
interpolated (and 3-decimal rounded) points; in every case the output has
exactly 100 points. -/
theorem c8_normalize_amended (signal : List ℚ) :
    normalize_to_100_points signal =
      (if signal.length = 0 then List.replicate 100 0
       else if signal.length = 1 then List.replicate 100 (signal.getD 0 0)
       else
         (linspace 0 100 100).map fun t =>
           pyRoundTo 3 (interp1dLinear (linspace 0 100 signal.length) signal t)) ∧
    (normalize_to_100_points signal).length = 100 := by
  refine ⟨rfl, ?_⟩
  unfold normalize_to_100_points
  split
  · exact List.length_replicate 100 0
  · split
    · exact List.length_replicate 100 _
    · rw [List.length_map, linspace_100_length]

unseal Rat.add Rat.mul Rat.sub Rat.inv Rat.ofScientific in
/-- Counterexample to C7: with only 3 of the required 625 samples,
`calibrate_static` raises nothing (there is no `InsufficientDataError`
anywhere in the source) and simply returns the biases computed from the 3
available samples. -/
theorem c7_counterexample :
    shortStaticData.length = 3 ∧ 3 < intFloor (5 * calibFs) ∧
      calibrate_static shortStaticData 5 =
        { acc_bias := (2, 3, -381 / 100), acc_scale := (1, 1, 1),
          gyro_bias := (5, 6, 7), gyro_scale := (1, 1, 1) } := by
  decide

/-- C7 amended: `calibrate_static` performs no sample-count validation and
can raise no error; for any duration it averages the first
`min(int(duration × rate), n)` available samples — slicing truncates — with
standard gravity subtracted on the vertical accelerometer axis, the raw
per-axis gyroscope mean, and unit scale factors. -/
theorem c7_calibrate_static_amended (data : List Sample8) (duration : ℚ) :
    calibrate_static data duration =
      { acc_bias :=
          (npMean ((data.take (intFloor (duration * calibFs))).map (·.c2)),
           npMean ((data.take (intFloor (duration * calibFs))).map (·.c3)),
           npMean ((data.take (intFloor (duration * calibFs))).map (·.c4)) -
             981 / 100)
        acc_scale := (1, 1, 1)
        gyro_bias :=
          (npMean ((data.take (intFloor (duration * calibFs))).map (·.c5)),
           npMean ((data.take (intFloor (duration * calibFs))).map (·.c6)),
           npMean ((data.take (intFloor (duration * calibFs))).map (·.c7)))
        gyro_scale := (1, 1, 1) } ∧
    (data.take (intFloor (duration * calibFs))).length =
      min (intFloor (duration * calibFs)) data.length := by
  constructor
  · simp only [calibrate_static, ← List.map_take, List.map_map]
    rfl
  · exact List.length_take _ _

/-- C9: for every feature quadruple the classifier returns exactly the
label of the claimed ordered, exclusive rule list. -/
theorem c9_classify_activity_rules
    (std dominant_freq peak_impact signal_roughness : ℚ) :
    classify_activity std dominant_freq peak_impact signal_roughness =
      classify_spec_c9 std dominant_freq peak_impact signal_roughness := by
  unfold classify_activity classify_spec_c9
  split_ifs <;> first | rfl | tauto

/-- C10: with no calibration params set, `apply_calibration` returns the
input stream unchanged; with params set, every row keeps its first two
columns and has its accelerometer triple mapped through
`(a - acc_bias) / acc_scale` and its gyroscope triple through
`(g - gyro_bias) / gyro_scale`. -/
theorem c10_apply_calibration_columns (p : CalibrationParams)
    (data : List Sample8) :
    apply_calibration none data = data ∧
    (apply_calibration (some p) data).length = data.length ∧
    (apply_calibration (some p) data).map (·.c0) = data.map (·.c0) ∧
    (apply_calibration (some p) data).map (·.c1) = data.map (·.c1) ∧
    (apply_calibration (some p) data).map (·.c2) =
      data.map (fun r => (r.c2 - p.acc_bias.1) / p.acc_scale.1) ∧
    (apply_calibration (some p) data).map (·.c3) =
      data.map (fun r => (r.c3 - p.acc_bias.2.1) / p.acc_scale.2.1) ∧
    (apply_calibration (some p) data).map (·.c4) =
      data.map (fun r => (r.c4 - p.acc_bias.2.2) / p.acc_scale.2.2) ∧
    (apply_calibration (some p) data).map (·.c5) =
      data.map (fun r => (r.c5 - p.gyro_bias.1) / p.gyro_scale.1) ∧
    (apply_calibration (some p) data).map (·.c6) =
      data.map (fun r => (r.c6 - p.gyro_bias.2.1) / p.gyro_scale.2.1) ∧
    (apply_calibration (some p) data).map (·.c7) =
      data.map (fun r => (r.c7 - p.gyro_bias.2.2) / p.gyro_scale.2.2) :=
  ⟨rfl, by simp [apply_calibration], by simp [apply_calibration],
    by simp [apply_calibration], by simp [apply_calibration],
    by simp [apply_calibration], by simp [apply_calibration],
    by simp [apply_calibration], by simp [apply_calibration],
    by simp [apply_calibration]⟩
